import Mathlib

/-!
Shallow embedding of the `pdftotext` Go package (a functional-options wrapper
around the external `pdftotext` command-line tool).

The package consists of a single struct `command` (executable path plus an
ordered argument list), a constructor `NewCommand` folding a sequence of
option closures over a default command, an executor `Run` spawning the
external binary through `os/exec`, a diagnostic `String` renderer, and one
option constructor per supported flag.

The operating-system boundary (`os/exec`) is modelled by an oracle: a
function from the spawned `Cmd` value to the pair of captured standard
output bytes and an optional execution error, mirroring the result shape of
Go's `(*exec.Cmd).Output` (which returns both the output gathered so far
and the error).
-/

namespace pdftotext

/-- The `command` struct: `path` is the location of the executable and
`args` the accumulated command-line arguments (source lines 21-24). -/
structure command where
  path : String
  args : List String
deriving DecidableEq, Repr

/-- The `option` type: `type option func(*command)` — a mutation of the
in-progress command, embedded as a state transformer. -/
def option := command → command

/-- `NewCommand` creates the command with the default executable path and
applies each option in order (source lines 27-34). -/
def NewCommand (opts : List option) : command :=
  opts.foldl (fun c opt => opt c) { path := "/usr/bin/pdftotext", args := [] }

/-- Model of Go's `exec.Cmd`: the program path plus the full argv
(`Args` includes the program name at position 0, as in `os/exec`). -/
structure Cmd where
  Path : String
  Args : List String
deriving DecidableEq, Repr

/-- Model of `exec.Command name arg...`: sets `Path` to `name` and `Args`
to `name` followed by the given arguments. -/
def execCommand (name : String) (arg : List String) : Cmd :=
  { Path := name, Args := name :: arg }

/-- Model of one Go execution error value (process failed to start or
exited non-zero); carries diagnostic text as `(*exec.ExitError)` does. -/
structure ExecError where
  msg : String
deriving DecidableEq, Repr

/-- The operating-system oracle standing for `(*exec.Cmd).Output`: for a
spawned `Cmd` it yields the captured standard-output bytes together with
an optional error (Go's `Output` returns both even on failure). -/
def OS := Cmd → List Nat × Option ExecError

/-- Model of `bytes.Buffer` as produced by `bytes.NewBuffer(out)`: an
in-memory byte buffer. -/
structure Buffer where
  data : List Nat
deriving DecidableEq, Repr

/-- Model of draining a `bytes.Buffer` to completion (`io.ReadAll`):
reading from an in-memory buffer yields exactly its contents and, per the
documented `bytes.Buffer.Read` semantics, can fail with no error other
than end-of-file, which `io.ReadAll` treats as success. -/
def Buffer.readAll (b : Buffer) : Except ExecError (List Nat) :=
  Except.ok b.data

/-- The `Cmd` value that `Run` spawns for a given input path
(source line 38: `exec.Command(c.path, append(c.args, inpath, "-")...)`). -/
def command.invocation (c : command) (inpath : String) : Cmd :=
  execCommand c.path (c.args ++ [inpath, "-"])

/-- `Run` executes the prepared command (source lines 37-46), embedded in
state-passing style: the second component is the command state after the
call (the body never assigns to `c`, so it is returned unchanged). On a
failed `Output` the captured bytes are discarded and `nil, err` is
returned; on success the output is wrapped in a fresh buffer. -/
def command.Run (os : OS) (c : command) (inpath : String) :
    Except ExecError Buffer × command :=
  let out := os (c.invocation inpath)
  match out.2 with
  | some e => (Except.error e, c)
  | none => (Except.ok { data := out.1 }, c)

/-- Model of Go's `(*exec.Cmd).String`: the path followed by each argument
of `Args[1:]`, separated by single spaces. -/
def Cmd.render (cmd : Cmd) : String :=
  cmd.Args.tail.foldl (fun b a => b ++ " " ++ a) cmd.Path

/-- `String` returns a human-readable description of the command
(source lines 49-51): it renders the `Cmd` that would be spawned, with the
literal placeholder `<inpath>` in place of the input path. It takes no
oracle: no subprocess is started. -/
def command.describe (c : command) : String :=
  (execCommand c.path (c.args ++ ["<inpath>"])).render

/-- The character for a single decimal digit `d < 10` (codepoint 48 is
`0`). -/
def digitChar (d : Nat) : Char :=
  Char.ofNat (48 + d)

/-- Fueled core of the base-10 formatter: peels decimal digits from the
least significant end onto `acc`. Fuel `n + 1` always suffices since each
step divides `n` by ten. -/
def formatUintCore : Nat → Nat → List Char → List Char
  | 0, _, acc => acc
  | fuel + 1, n, acc =>
    if n < 10 then digitChar n :: acc
    else formatUintCore fuel (n / 10) (digitChar (n % 10) :: acc)

/-- Model of `strconv.FormatUint(n, 10)`: the base-10 decimal
representation of `n`. -/
def formatUint (n : Nat) : String :=
  { data := formatUintCore (n + 1) n [] }

/-- `WithCustomPath` sets a custom location for the executable
(source lines 60-64). -/
def WithCustomPath (path : String) : option :=
  fun c => { c with path := path }

/-- `WithCustomConfig` reads a config file in place of the default
(source lines 67-71). -/
def WithCustomConfig (path : String) : option :=
  fun c => { c with args := c.args ++ ["-cfg", path] }

/-- `WithPageFrom` specifies the first page to convert
(source lines 74-78). -/
def WithPageFrom (page : Nat) : option :=
  fun c => { c with args := c.args ++ ["-f", formatUint page] }

/-- `WithPageTo` specifies the last page to convert
(source lines 81-85). -/
def WithPageTo (page : Nat) : option :=
  fun c => { c with args := c.args ++ ["-l", formatUint page] }

/-- `WithPageRange` (source lines 88-93): the body evaluates
`WithPageFrom(from)` and `WithPageTo(to)` but never applies the resulting
closures to `c`, so the command is returned unmodified. -/
def WithPageRange (f t : Nat) : option :=
  fun c =>
    let _ := WithPageFrom f
    let _ := WithPageTo t
    c

/-- `WithModeLayout` (source lines 96-100). -/
def WithModeLayout : option :=
  fun c => { c with args := c.args ++ ["-layout"] }

/-- `WithModeSimple` (source lines 106-110). -/
def WithModeSimple : option :=
  fun c => { c with args := c.args ++ ["-simple"] }

/-- `WithModeSimple2` (source lines 115-119). -/
def WithModeSimple2 : option :=
  fun c => { c with args := c.args ++ ["-simple2"] }

/-- `WithModeTable` (source lines 127-131). -/
def WithModeTable : option :=
  fun c => { c with args := c.args ++ ["-table"] }

/-- `WithModeLinePrinter` (source lines 143-147). -/
def WithModeLinePrinter : option :=
  fun c => { c with args := c.args ++ ["-lineprinter"] }

/-- `WithModeRaw` (source lines 152-156). -/
def WithModeRaw : option :=
  fun c => { c with args := c.args ++ ["-raw"] }

/-- `WithCharFixedWidth` specifies the character pitch in points
(source lines 161-165). -/
def WithCharFixedWidth (width : Nat) : option :=
  fun c => { c with args := c.args ++ ["-fixed", formatUint width] }

/-- `WithLineFixedSpacing` specifies the line spacing in points
(source lines 170-174). -/
def WithLineFixedSpacing (spacing : Nat) : option :=
  fun c => { c with args := c.args ++ ["-linespacing", formatUint spacing] }

/-- `WithTextClipping` (source lines 181-185). -/
def WithTextClipping : option :=
  fun c => { c with args := c.args ++ ["-clip"] }

/-- `WithNoTextDiagonal` (source lines 191-195). -/
def WithNoTextDiagonal : option :=
  fun c => { c with args := c.args ++ ["-nodiag"] }

/-- `WithEncoding` sets the output text encoding (source lines 203-207). -/
def WithEncoding (name : String) : option :=
  fun c => { c with args := c.args ++ ["-enc", name] }

/-- `WithEndOfLine` sets the end-of-line convention
(source lines 212-216). -/
def WithEndOfLine (kind : String) : option :=
  fun c => { c with args := c.args ++ ["-eol", kind] }

/-- `WithNoPageBreak` (source lines 219-223). -/
def WithNoPageBreak : option :=
  fun c => { c with args := c.args ++ ["-nopgbrk"] }

/-- `WithByteOrderMarker` (source lines 226-230). -/
def WithByteOrderMarker : option :=
  fun c => { c with args := c.args ++ ["-bom"] }

/-- `WithMarginLeft` specifies the left margin in points
(source lines 236-240). -/
def WithMarginLeft (margin : Nat) : option :=
  fun c => { c with args := c.args ++ ["-marginl", formatUint margin] }

/-- `WithMarginRight` specifies the right margin in points
(source lines 246-250). -/
def WithMarginRight (margin : Nat) : option :=
  fun c => { c with args := c.args ++ ["-marginr", formatUint margin] }

/-- `WithMarginTop` specifies the top margin in points
(source lines 256-260). -/
def WithMarginTop (margin : Nat) : option :=
  fun c => { c with args := c.args ++ ["-margint", formatUint margin] }

/-- `WithMarginBottom` specifies the bottom margin in points
(source lines 266-270). -/
def WithMarginBottom (margin : Nat) : option :=
  fun c => { c with args := c.args ++ ["-marginb", formatUint margin] }

/-- `WithMargin` (source lines 273-280): the body evaluates the four
atomic margin option constructors but never applies the resulting
closures to `c`, so the command is returned unmodified. -/
def WithMargin (t r b l : Nat) : option :=
  fun c =>
    let _ := WithMarginTop t
    let _ := WithMarginRight r
    let _ := WithMarginBottom b
    let _ := WithMarginLeft l
    c

/-- `WithOwnerPassword` (source lines 285-289). -/
def WithOwnerPassword (password : String) : option :=
  fun c => { c with args := c.args ++ ["-opw", password] }

/-- `WithUserPassword` (source lines 292-296). -/
def WithUserPassword (password : String) : option :=
  fun c => { c with args := c.args ++ ["-upw", password] }

/-- Syntax of the package's public option constructors, used to quantify
over sequences of options passed to `NewCommand`. One constructor per
exported `With…` function. -/
inductive Opt where
  | customPath (path : String)
  | customConfig (path : String)
  | pageFrom (page : Nat)
  | pageTo (page : Nat)
  | pageRange (f t : Nat)
  | modeLayout
  | modeSimple
  | modeSimple2
  | modeTable
  | modeLinePrinter
  | modeRaw
  | charFixedWidth (width : Nat)
  | lineFixedSpacing (spacing : Nat)
  | textClipping
  | noTextDiagonal
  | encoding (name : String)
  | endOfLine (kind : String)
  | noPageBreak
  | byteOrderMarker
  | marginLeft (m : Nat)
  | marginRight (m : Nat)
  | marginTop (m : Nat)
  | marginBottom (m : Nat)
  | margin (t r b l : Nat)
  | ownerPassword (p : String)
  | userPassword (p : String)
deriving DecidableEq, Repr

/-- Interpretation of an `Opt` as the option closure the package
constructs for it. -/
def Opt.interp : Opt → option
  | .customPath path => WithCustomPath path
  | .customConfig path => WithCustomConfig path
  | .pageFrom page => WithPageFrom page
  | .pageTo page => WithPageTo page
  | .pageRange f t => WithPageRange f t
  | .modeLayout => WithModeLayout
  | .modeSimple => WithModeSimple
  | .modeSimple2 => WithModeSimple2
  | .modeTable => WithModeTable
  | .modeLinePrinter => WithModeLinePrinter
  | .modeRaw => WithModeRaw
  | .charFixedWidth width => WithCharFixedWidth width
  | .lineFixedSpacing spacing => WithLineFixedSpacing spacing
  | .textClipping => WithTextClipping
  | .noTextDiagonal => WithNoTextDiagonal
  | .encoding name => WithEncoding name
  | .endOfLine kind => WithEndOfLine kind
  | .noPageBreak => WithNoPageBreak
  | .byteOrderMarker => WithByteOrderMarker
  | .marginLeft m => WithMarginLeft m
  | .marginRight m => WithMarginRight m
  | .marginTop m => WithMarginTop m
  | .marginBottom m => WithMarginBottom m
  | .margin t r b l => WithMargin t r b l
  | .ownerPassword p => WithOwnerPassword p
  | .userPassword p => WithUserPassword p

/-- The argument tokens a single option appends to `args` (empty for the
path override and for the two no-op composite options). -/
def Opt.tokens : Opt → List String
  | .customPath _ => []
  | .customConfig path => ["-cfg", path]
  | .pageFrom page => ["-f", formatUint page]
  | .pageTo page => ["-l", formatUint page]
  | .pageRange _ _ => []
  | .modeLayout => ["-layout"]
  | .modeSimple => ["-simple"]
  | .modeSimple2 => ["-simple2"]
  | .modeTable => ["-table"]
  | .modeLinePrinter => ["-lineprinter"]
  | .modeRaw => ["-raw"]
  | .charFixedWidth width => ["-fixed", formatUint width]
  | .lineFixedSpacing spacing => ["-linespacing", formatUint spacing]
  | .textClipping => ["-clip"]
  | .noTextDiagonal => ["-nodiag"]
  | .encoding name => ["-enc", name]
  | .endOfLine kind => ["-eol", kind]
  | .noPageBreak => ["-nopgbrk"]
  | .byteOrderMarker => ["-bom"]
  | .marginLeft m => ["-marginl", formatUint m]
  | .marginRight m => ["-marginr", formatUint m]
  | .marginTop m => ["-margint", formatUint m]
  | .marginBottom m => ["-marginb", formatUint m]
  | .margin _ _ _ _ => []
  | .ownerPassword p => ["-opw", p]
  | .userPassword p => ["-upw", p]

/-- The effect of a single option on the `path` field: a path override
replaces it, every other option leaves it alone. -/
def Opt.pathStep (p : String) : Opt → String
  | .customPath q => q
  | _ => p

/-- Whether an option is the executable-path override. -/
def Opt.isCustomPath : Opt → Bool
  | .customPath _ => true
  | _ => false

/-- Characterization of applying a sequence of public options to an
arbitrary command state: tokens are appended in order, and the path is
the last override (if any) of the starting path. -/
theorem foldl_interp_spec (opts : List Opt) (c : command) :
    opts.foldl (fun s o => o.interp s) c =
      { path := opts.foldl Opt.pathStep c.path,
        args := c.args ++ (opts.map Opt.tokens).flatten } := by
  induction opts generalizing c with
  | nil => simp
  | cons o rest ih =>
    rw [List.foldl_cons, List.foldl_cons, ih]
    cases o <;>
      simp [Opt.interp, Opt.tokens, Opt.pathStep, WithCustomPath,
        WithCustomConfig, WithPageFrom, WithPageTo, WithPageRange,
        WithModeLayout, WithModeSimple, WithModeSimple2, WithModeTable,
        WithModeLinePrinter, WithModeRaw, WithCharFixedWidth,
        WithLineFixedSpacing, WithTextClipping, WithNoTextDiagonal,
        WithEncoding, WithEndOfLine, WithNoPageBreak, WithByteOrderMarker,
        WithMarginLeft, WithMarginRight, WithMarginTop, WithMarginBottom,
        WithMargin, WithOwnerPassword, WithUserPassword]

/-- If no option in the sequence is the path override, folding the path
effect leaves the starting path unchanged. -/
theorem foldl_pathStep_of_no_override (opts : List Opt)
    (h : ∀ o ∈ opts, o.isCustomPath = false) (p : String) :
    opts.foldl Opt.pathStep p = p := by
  induction opts generalizing p with
  | nil => rfl
  | cons o rest ih =>
    have ho := h o (List.mem_cons_self o rest)
    have hrest : ∀ o ∈ rest, o.isCustomPath = false := by
      intro o' ho'
      exact h o' (List.mem_cons_of_mem o ho')
    rw [List.foldl_cons]
    cases o <;> simp [Opt.isCustomPath] at ho ⊢ <;>
      simp [Opt.pathStep, ih hrest]

/-- A digit character built from `d < 10` satisfies `Char.isDigit`. -/
theorem digitChar_isDigit (d : Nat) (h : d < 10) :
    (digitChar d).isDigit = true := by
  interval_cases d <;> decide

/-- Every character the fueled decimal formatter produces is a decimal
digit, provided the accumulator already contains only digits. -/
theorem formatUintCore_digits (fuel n : Nat) (acc : List Char)
    (hacc : ∀ ch ∈ acc, ch.isDigit = true) :
    ∀ ch ∈ formatUintCore fuel n acc, ch.isDigit = true := by
  induction fuel generalizing n acc with
  | zero => simpa [formatUintCore] using hacc
  | succ fuel ih =>
    rw [formatUintCore]
    by_cases hn : n < 10
    · simp only [if_pos hn]
      intro ch hch
      rcases List.mem_cons.mp hch with h1 | h2
      · exact h1 ▸ digitChar_isDigit n hn
      · exact hacc ch h2
    · simp only [if_neg hn]
      refine ih (n / 10) (digitChar (n % 10) :: acc) ?_
      intro ch hch
      rcases List.mem_cons.mp hch with h1 | h2
      · exact h1 ▸ digitChar_isDigit (n % 10) (Nat.mod_lt n (by omega))
      · exact hacc ch h2

/-- Every character of the base-10 representation is a decimal digit. -/
theorem formatUint_digits (n : Nat) :
    ∀ ch ∈ (formatUint n).data, ch.isDigit = true := by
  exact formatUintCore_digits (n + 1) n [] (by intro ch h; cases h)

/-- The specified rendering of a word list: the words separated by single
spaces (taken from the spec's description of `describe`). -/
def spaceJoin : List String → String
  | [] => ""
  | [x] => x
  | x :: y :: xs => x ++ " " ++ spaceJoin (y :: xs)

/-- Left fold of space-append agrees with `spaceJoin` over the whole
word list. -/
theorem foldl_spaceAppend (xs : List String) (x : String) :
    xs.foldl (fun b a => b ++ " " ++ a) x = spaceJoin (x :: xs) := by
  induction xs generalizing x with
  | nil => rfl
  | cons y ys ih =>
    rw [List.foldl_cons, ih]
    cases ys with
    | nil => rfl
    | cons z zs => simp [spaceJoin, String.append_assoc]

/-- Applying a mapped option sequence through `NewCommand` is the fold of
the interpretations over the default command. -/
theorem NewCommand_map_interp (opts : List Opt) :
    NewCommand (opts.map Opt.interp) =
      { path := opts.foldl Opt.pathStep "/usr/bin/pdftotext",
        args := (opts.map Opt.tokens).flatten } := by
  rw [NewCommand, List.foldl_map]
  simpa using foldl_interp_spec opts { path := "/usr/bin/pdftotext", args := [] }

/-- C1: the claim states that `WithMargin(t, r, b, l)` yields the same
argument list as the four atomic margin options in top, right, bottom,
left order. The code violates this: `WithMargin` constructs the four
atomic options without invoking them on the command, so it appends
nothing, while the atomic sequence appends all eight tokens. Evaluated
here at the concrete input t = 1, r = 2, b = 3, l = 4. -/
theorem withMargin_differs_from_atomics :
    (NewCommand [WithMargin 1 2 3 4]).args ≠
      (NewCommand [WithMarginTop 1, WithMarginRight 2, WithMarginBottom 3,
        WithMarginLeft 4]).args ∧
    (NewCommand [WithMargin 1 2 3 4]).args = [] ∧
    (NewCommand [WithMarginTop 1, WithMarginRight 2, WithMarginBottom 3,
      WithMarginLeft 4]).args =
      ["-margint", "1", "-marginr", "2", "-marginb", "3", "-marginl", "4"] := by
  refine ⟨by decide, by decide, by decide⟩

/-- C2: for every command state and all argument values, the composite
options `WithMargin` and `WithPageRange` return the command unchanged
(args and path included): they construct nested option values but never
invoke them. -/
theorem composite_options_noop (c : command) (t r b l f g : Nat) :
    WithMargin t r b l c = c ∧ WithPageRange f g c = c :=
  ⟨rfl, rfl⟩

/-- C3: `Run` invokes the executable at the command's path with argv
consisting of the accumulated args followed by the input path followed by
the literal final token `-`. The invoked `Cmd` has exactly that path and
argument vector, and the entire outcome of `Run` is determined by the
oracle's answer at that single invocation. -/
theorem run_wire_invocation (c : command) (inpath : String)
    (os₁ os₂ : OS)
    (h : os₁ (c.invocation inpath) = os₂ (c.invocation inpath)) :
    c.Run os₁ inpath = c.Run os₂ inpath ∧
    (c.invocation inpath).Path = c.path ∧
    (c.invocation inpath).Args = c.path :: (c.args ++ [inpath, "-"]) := by
  refine ⟨?_, rfl, rfl⟩
  simp only [command.Run, h]

/-- Witness for C3: two oracles that agree on the single spawned `Cmd`
(one of them inspects the argv length) give identical `Run` outcomes on a
concrete command and input path. -/
theorem run_wire_invocation_witness :
    (command.Run (fun _ => ([1], Option.none))
        { path := "/usr/bin/pdftotext", args := [] } ("in.pdf") =
      command.Run
        (fun cmd =>
          if cmd.Args.length = 3 then ([1], Option.none)
          else ([9], Option.some { msg := "boom" }))
        { path := "/usr/bin/pdftotext", args := [] } ("in.pdf")) ∧
    (command.invocation { path := "/usr/bin/pdftotext", args := [] }
      ("in.pdf")).Path = "/usr/bin/pdftotext" ∧
    (command.invocation { path := "/usr/bin/pdftotext", args := [] }
      ("in.pdf")).Args =
      "/usr/bin/pdftotext" :: ([] ++ ["in.pdf", "-"]) :=
  run_wire_invocation { path := "/usr/bin/pdftotext", args := [] } ("in.pdf")
    (fun _ => ([1], Option.none))
    (fun cmd =>
      if cmd.Args.length = 3 then ([1], Option.none)
      else ([9], Option.some { msg := "boom" }))
    (by decide)

/-- C4: the command built by `NewCommand` from any sequence of public
options has as args the in-order concatenation of the tokens each option
appends (append-only, order-preserving, no removal or deduplication), and
a trailing `WithCustomPath` overrides the path without touching the
accumulated args. -/
theorem newCommand_args_append_order (opts : List Opt) (p : String) :
    NewCommand (opts.map Opt.interp) =
      { path := opts.foldl Opt.pathStep "/usr/bin/pdftotext",
        args := (opts.map Opt.tokens).flatten } ∧
    NewCommand ((opts ++ [Opt.customPath p]).map Opt.interp) =
      { path := p, args := (NewCommand (opts.map Opt.interp)).args } := by
  refine ⟨NewCommand_map_interp opts, ?_⟩
  rw [NewCommand_map_interp opts, NewCommand_map_interp (opts ++ [Opt.customPath p])]
  simp [Opt.pathStep, Opt.tokens]

/-- C5: whenever the oracle reports a failure for the spawned command
(process would not start, or exited non-zero), `Run` returns exactly that
error and no output reader, discarding any partially captured output, and
leaves the command unchanged; the single failed invocation is surfaced
directly. -/
theorem run_failure_no_output (os : OS) (c : command) (inpath : String)
    (e : ExecError) (h : (os (c.invocation inpath)).2 = Option.some e) :
    c.Run os inpath = (Except.error e, c) := by
  simp only [command.Run, h]

/-- Witness for C5: an oracle reporting a non-zero exit with partial
output bytes present; `Run` discards the bytes and returns the error. -/
theorem run_failure_no_output_witness :
    command.Run (fun _ => ([7], Option.some { msg := "exit status 1" }))
      { path := "/usr/bin/pdftotext", args := [] } ("in.pdf") =
      (Except.error { msg := "exit status 1" },
        { path := "/usr/bin/pdftotext", args := [] }) :=
  run_failure_no_output
    (fun _ => ([7], Option.some { msg := "exit status 1" }))
    { path := "/usr/bin/pdftotext", args := [] } ("in.pdf")
    { msg := "exit status 1" } rfl

/-- C6: for every option sequence containing no `WithCustomPath`, the
command built by `NewCommand` keeps the default executable path
`/usr/bin/pdftotext`. -/
theorem newCommand_default_path (opts : List Opt)
    (h : ∀ o ∈ opts, o.isCustomPath = false) :
    (NewCommand (opts.map Opt.interp)).path = "/usr/bin/pdftotext" := by
  rw [NewCommand_map_interp opts]
  exact foldl_pathStep_of_no_override opts h _

/-- Witness for C6: a concrete sequence without a path override yields
the default path. -/
theorem newCommand_default_path_witness :
    (NewCommand ([Opt.encoding ("UTF-8"), Opt.modeLayout,
      Opt.noPageBreak].map Opt.interp)).path = "/usr/bin/pdftotext" :=
  newCommand_default_path
    [Opt.encoding ("UTF-8"), Opt.modeLayout, Opt.noPageBreak] (by decide)

/-- C7: `Run` never mutates the command: the post-state equals the
pre-state, on both the success and the failure path. -/
theorem run_preserves_command (os : OS) (c : command) (inpath : String) :
    (c.Run os inpath).2 = c := by
  simp only [command.Run]
  split <;> rfl

/-- C8: the describe operation renders the command as it would be
invoked — the path, then every accumulated argument, then the literal
placeholder `<inpath>`, separated by single spaces. It is a pure function
of the command taking no operating-system oracle, so it is deterministic
under identical option sequences, spawns no subprocess and mutates
nothing. -/
theorem describe_renders_placeholder (c : command) :
    c.describe = spaceJoin (c.path :: (c.args ++ ["<inpath>"])) := by
  rw [command.describe, Cmd.render]
  simpa [execCommand] using foldl_spaceAppend (c.args ++ ["<inpath>"]) c.path

/-- C9: every numeric atomic option takes an unsigned 64-bit value and
appends exactly two tokens — its flag and the base-10 decimal rendering
of the value — and that rendering consists of decimal digit characters
only, so no negative or non-numeric text can appear as the
flag's argument. -/
theorem numeric_options_two_tokens (n : Nat) (h : n < 2 ^ 64)
    (c : command) :
    (WithPageFrom n c).args = c.args ++ ["-f", formatUint n] ∧
    (WithPageTo n c).args = c.args ++ ["-l", formatUint n] ∧
    (WithCharFixedWidth n c).args = c.args ++ ["-fixed", formatUint n] ∧
    (WithLineFixedSpacing n c).args =
      c.args ++ ["-linespacing", formatUint n] ∧
    (WithMarginLeft n c).args = c.args ++ ["-marginl", formatUint n] ∧
    (WithMarginRight n c).args = c.args ++ ["-marginr", formatUint n] ∧
    (WithMarginTop n c).args = c.args ++ ["-margint", formatUint n] ∧
    (WithMarginBottom n c).args = c.args ++ ["-marginb", formatUint n] ∧
    ∀ ch ∈ (formatUint n).data, ch.isDigit = true :=
  ⟨rfl, rfl, rfl, rfl, rfl, rfl, rfl, rfl, formatUint_digits n⟩

/-- Witness for C9: at value 42 on the default command, `WithPageFrom`
appends exactly the flag and the decimal rendering, which evaluates
to `42`. -/
theorem numeric_options_two_tokens_witness :
    (WithPageFrom 42 { path := "/usr/bin/pdftotext", args := [] }).args =
      ["-f", "42"] :=
  ((numeric_options_two_tokens 42 (by norm_num)
    { path := "/usr/bin/pdftotext", args := [] }).1).trans (by decide)

/-- C10: on success, the reader `Run` returns is an in-memory buffer
holding exactly the bytes the oracle captured from the subprocess's
standard output, fully materialized before `Run` returns, and draining
that buffer to completion yields exactly those bytes and never fails. -/
theorem run_success_buffer (os : OS) (c : command) (inpath : String)
    (buf : Buffer) (h : (c.Run os inpath).1 = Except.ok buf) :
    buf.data = (os (c.invocation inpath)).1 ∧
    buf.readAll = Except.ok buf.data := by
  refine ⟨?_, rfl⟩
  simp only [command.Run] at h
  split at h
  · cases h
  · cases h
    rfl

/-- Witness for C10: a concrete oracle capturing the bytes `[104, 105]`;
the buffer returned by `Run` holds exactly those bytes and drains to them
without error. -/
theorem run_success_buffer_witness :
    (Buffer.mk [104, 105]).data =
      ((fun _ => ([104, 105], Option.none) : OS)
        (command.invocation { path := "/usr/bin/pdftotext", args := [] }
          ("in.pdf"))).1 ∧
    (Buffer.mk [104, 105]).readAll =
      Except.ok (Buffer.mk [104, 105]).data :=
  run_success_buffer (fun _ => ([104, 105], Option.none))
    { path := "/usr/bin/pdftotext", args := [] } ("in.pdf")
    (Buffer.mk [104, 105]) rfl

end pdftotext
